import Mathlib

/-!
Shallow embedding of the sandboxed code-execution subsystem
(`sandbox_manager.py` and `sandbox_autorun.py`) and proofs about it.

Conventions of the embedding:
- A Python `str` that is used as a file name or path is embedded as its
  list of characters (`Str`), so that name sanitisation (`os.path.basename`,
  `.endswith(".py")`) can be reasoned about character by character.
  Opaque text (captured output, error messages, code bodies) stays `String`.
- The behaviour of the child process launched by `subprocess.run` is an
  oracle value of type `ProcOutcome`: the process either completed within
  the timeout (with its merged stdout+stderr text, its exit code and a
  wall-clock duration), expired its timeout (`subprocess.TimeoutExpired`),
  or failed to launch (any other exception caught by the `except Exception`
  arm).  A fault raised *inside* the sandboxed code terminates the child
  with a nonzero exit code and its traceback on stderr, hence it is a
  `completed` outcome whose merged output contains the fault text.
- Fallible host-side I/O that the claims mention is an explicit oracle
  boolean (`logWriteOk`, `unlinkOk`).  A Python function that can let an
  exception escape to its caller returns `PyResult α`; `raised msg` models
  an uncaught exception propagating.
-/

namespace Sandbox

/-- A Python `str` used as a file name or path, as its list of characters. -/
abbrev Str := List Char

/-- Helper for `basename`: scan the characters, restarting the accumulated
name component at every slash. -/
def basenameAux : List Char → List Char → List Char
  | [], acc => acc
  | c :: cs, acc => if c = '/' then basenameAux cs [] else basenameAux cs (acc ++ [c])

/-- POSIX `os.path.basename`: everything after the last slash. -/
def basename (s : Str) : Str := basenameAux s []

/-- The three characters of the canonical script suffix ".py". -/
def pySuffix : Str := ['.', 'p', 'y']

/-- Python `s.endswith(".py")`. -/
def endsWithPy (s : Str) : Bool := decide (pySuffix <:+ s)

/-- The name component of the path returned by `save_project`
(sandbox_manager.py lines 96-106): `safe = os.path.basename(filename)`,
then `".py"` is appended when missing.  The function returns
`str(FILES_DIR / safe)`; since `safe` is nonempty and slash-free, the
returned path is the file named `safe` directly inside `FILES_DIR`,
so we model the name component. -/
def save_project (filename : Str) : Str :=
  let safe := basename filename
  if endsWithPy safe then safe else safe ++ pySuffix

/-- pathlib `p.suffix == ".py"` for a file name: it ends with ".py" and the
final dot is not the leading character (a file literally named ".py" is a
dotfile whose `suffix` is empty), i.e. the name has length at least 4. -/
def hasPySuffix (name : Str) : Bool := endsWithPy name && decide (4 ≤ name.length)

/-- `list_projects` (sandbox_manager.py lines 108-117), reduced to the
sequence of listed names: the files of the store whose pathlib suffix is
".py".  The mtime ordering and the size/created metadata play no role in
the claims, so the store is carried as its list of file names. -/
def list_projects (store : List Str) : List Str := store.filter hasPySuffix

/-- The result dictionary returned by the execution engine.  Optional
fields model dictionary keys that some branches omit (`elapsed` is absent
on the timeout and fault branches, `output` is absent on the not-found
branch of `run_project_by_name`). -/
structure ExecResult where
  ok : Bool
  output : Option String := none
  error : Option String := none
  elapsed : Option Nat := none
deriving DecidableEq, Repr

/-- Outcome of a Python call that may let an exception escape to the
caller: a returned value, or an uncaught raised exception. -/
inductive PyResult (α : Type) where
  | ret (value : α)
  | raised (message : String)
deriving DecidableEq, Repr

/-- Oracle describing what the child process of `subprocess.run` did:
completed within the timeout (merged stdout+stderr text, exit code,
wall-clock duration), expired the timeout, or failed to launch.  A fault
raised inside the sandboxed code is a `completed` outcome with nonzero
exit code and the traceback text inside `mergedOutput`. -/
inductive ProcOutcome where
  | completed (mergedOutput : String) (exitCode : Nat) (elapsed : Nat)
  | timedOut
  | launchFault (message : String)
deriving DecidableEq, Repr

/-- The try/except ladder shared verbatim by `run_code_snippet`
(lines 51-71) and `run_project_by_name` (lines 132-145): a completed
process gives `ok=True` with the merged output and the elapsed time (the
exit code is ignored, `subprocess.run` is called without `check=True`);
`TimeoutExpired` gives `ok=False, error="timeout", output=""`; any other
exception gives `ok=False` with its text and `output=""`. -/
def procResult : ProcOutcome → ExecResult
  | .completed out _ t => { ok := true, output := some out, elapsed := some t }
  | .timedOut => { ok := false, error := some "timeout", output := some "" }
  | .launchFault msg => { ok := false, error := some msg, output := some "" }

/-- One audit log record (the JSON dictionary persisted per invocation). -/
structure LogRecord where
  kind : String
  project : Option Str := none
  ok : Bool
  error : Option String := none
  elapsed : Option Nat := none
  output : Option String := none
  codePreview : Option String := none
deriving DecidableEq, Repr

/-- Observable effects of one `run_code_snippet` invocation: the returned
(or raised) value, how many log-file writes were attempted and succeeded,
and the record content the write attempted to persist. -/
structure SnippetOut where
  result : PyResult ExecResult
  logAttempts : Nat
  logsWritten : Nat
  record : LogRecord
deriving DecidableEq, Repr

/-- `run_code_snippet` (sandbox_manager.py lines 44-94).  Every branch of
the body is covered by `except Exception`, so the function always returns
a result dictionary; the log write in `finally` is wrapped in its own
`try/except: pass`, so a failed write (`logWriteOk = false`) is swallowed.
The temp-dir setup before the `try` is treated as infallible host I/O. -/
def run_code_snippet (code : String) (outcome : ProcOutcome) (logWriteOk : Bool) :
    SnippetOut :=
  let result := procResult outcome
  { result := .ret result
    logAttempts := 1
    logsWritten := if logWriteOk then 1 else 0
    record :=
      { kind := "snippet"
        ok := result.ok
        error := result.error
        elapsed := result.elapsed
        output := result.output.map (fun s => s.take 10000)
        codePreview := some (code.take 2000) } }

/-- Observable effects of one `run_project_by_name` invocation. -/
structure ProjectOut where
  result : PyResult ExecResult
  logAttempts : Nat
  logsWritten : Nat
  record : Option LogRecord
deriving DecidableEq, Repr

/-- The early-return value of `run_project_by_name` when the sanitized
name does not resolve to an existing file. -/
def notFoundResult : ExecResult := { ok := false, error := some "not found" }

/-- `run_project_by_name` (sandbox_manager.py lines 119-161).  The name is
sanitized with `os.path.basename` and looked up in the store; absence
returns `{"ok": False, "error": "not found"}` *before* the try/finally,
so no log record is attempted on that path.  Unlike `run_code_snippet`,
the log write in this function's `finally` block is *not* wrapped in a
`try/except`, so a failing write raises out of the function, replacing
the computed result with a propagated exception. -/
def run_project_by_name (store : List Str) (name : Str) (outcome : ProcOutcome)
    (logWriteOk : Bool) : ProjectOut :=
  let safe := basename name
  if safe ∈ store then
    let result := procResult outcome
    if logWriteOk then
      { result := .ret result
        logAttempts := 1
        logsWritten := 1
        record := some
          { kind := "project"
            project := some safe
            ok := result.ok
            error := result.error
            elapsed := result.elapsed
            output := result.output.map (fun s => s.take 10000) } }
    else
      { result := .raised "log write failed"
        logAttempts := 1
        logsWritten := 0
        record := none }
  else
    { result := .ret notFoundResult, logAttempts := 0, logsWritten := 0, record := none }

/-- What reading and JSON-parsing a descriptor file can yield: text that
`json.loads` rejects, or a parsed object whose `code_full_path` field is a
string, or is absent / `null` (`req.get("code_full_path")` gives `None`). -/
inductive Descriptor where
  | unparsable
  | parsed (codeFullPath : Option Str)
deriving DecidableEq, Repr

/-- The result dictionary returned by `approve_request`. -/
structure ApproveRes where
  ok : Bool
  error : Option String := none
  approvedPath : Option Str := none
deriving DecidableEq, Repr

/-- The on-disk state that `create_pending_request` / `approve_request`
touch: the descriptor files of the pending directory (by path, absent or
with their parsed content), the full paths of pending code files, and the
file names of the approved store. -/
structure SbState where
  descriptors : Str → Option Descriptor
  pendingCode : List Str
  store : List Str

/-- The `{"ok": False, "error": f"bad request file: {e}"}` reply (the
exception text appended in the source is dropped by the model). -/
def badRequestRes : ApproveRes := { ok := false, error := some "bad request file" }

/-- The `{"ok": False, "error": "code file missing"}` reply. -/
def missingCodeRes : ApproveRes := { ok := false, error := some "code file missing" }

/-- `approve_request` (sandbox_manager.py lines 197-216).  Only the
read-and-parse of the descriptor is inside a `try`; an unreadable or
unparsable descriptor returns a bad-request reply.  `code_path =
Path(req.get("code_full_path"))` stands *outside* that `try`, so a parsed
descriptor whose `code_full_path` is absent or `null` raises `TypeError`
out of the function.  A missing code file returns an error reply with no
mutation.  Otherwise the code file is moved into the store under its
basename and the descriptor is unlinked, the unlink failure being
swallowed (`unlinkOk` oracle). -/
def approve_request (st : SbState) (requestFile : Str) (unlinkOk : Bool) :
    PyResult ApproveRes × SbState :=
  match st.descriptors requestFile with
  | none => (.ret badRequestRes, st)
  | some .unparsable => (.ret badRequestRes, st)
  | some (.parsed none) =>
      (.raised "TypeError: argument should be a str or an os.PathLike object, not NoneType",
        st)
  | some (.parsed (some codePath)) =>
      if codePath ∈ st.pendingCode then
        let target := basename codePath
        (.ret { ok := true, approvedPath := some target },
          { descriptors := fun r =>
              if r = requestFile ∧ unlinkOk = true then none else st.descriptors r
            pendingCode := st.pendingCode.erase codePath
            store := target :: st.store })
      else (.ret missingCodeRes, st)

/-- The file name chosen by `create_pending_request` (sandbox_manager.py
lines 176-178) for the full code file: `f"{ts}_{uid}_{name}"` with ".py"
appended when missing.  `tsUid` stands for the `f"{ts}_{uid}"` part. -/
def pendingFileName (tsUid : Str) (name : Str) : Str :=
  let fname := tsUid ++ '_' :: name
  if endsWithPy fname then fname else fname ++ pySuffix

/-- `create_pending_request` (sandbox_manager.py lines 163-184) acting on
the on-disk state: it writes the full code file into the pending
directory and a sibling descriptor file `fname + ".request.json"` whose
`code_full_path` references the code file. -/
def create_pending_request (st : SbState) (tsUid : Str) (name : Str) : SbState :=
  let fname := pendingFileName tsUid name
  { descriptors := fun r =>
      if r = fname ++ (".request.json".data) then some (.parsed (some fname))
      else st.descriptors r
    pendingCode := fname :: st.pendingCode
    store := st.store }

/-! ## The idle scheduler's firing cycles (sandbox_autorun.py) -/

/-- Observable events of one firing cycle of `autorun_loop`: an execution
attempt on an artifact (a call into the execution engine), the deletion
of a disposable task file (`f.unlink`), and the logging of a caught
per-item failure. -/
inductive AutoEvent where
  | attempt (name : Str)
  | deleted (name : Str)
  | errorLogged (name : Str)
deriving DecidableEq, Repr

/-- One selected disposable task: its file name and whether the body of
its loop iteration runs without raising (`read_text` succeeding; the
engine call itself catches all exceptions, and `unlink(missing_ok=True)`
does not fail on an existing file).  When the read raises, the exception
is caught and logged, and neither an attempt nor a deletion happens. -/
abbrev TaskItem := Str × Bool

/-- Events of one autotask iteration (sandbox_autorun.py lines 119-127):
on success the code is read, executed, and the file is unlinked *after*
the execution attempt; on a raise the error is caught and logged. -/
def autotaskStep (t : TaskItem) : List AutoEvent :=
  if t.2 then [.attempt t.1, .deleted t.1] else [.errorLogged t.1]

/-- The autotask loop over the selected files, carrying the `runs`
counter: `runs` increments only when the iteration body completed, and
the loop breaks as soon as `runs >= max_runs_per_cycle`
(lines 119-129). -/
def autotaskGo : List TaskItem → Nat → Nat → List AutoEvent × Nat
  | [], runs, _ => ([], runs)
  | t :: rest, runs, limit =>
      let evs := autotaskStep t
      let nruns := if t.2 then runs + 1 else runs
      if limit ≤ nruns then (evs, nruns)
      else
        let tail := autotaskGo rest nruns limit
        (evs ++ tail.1, tail.2)

/-- One autotask-mode firing cycle: the sorted pending files are sliced
to `max_runs_per_cycle` (`pending_files[:cfg["max_runs_per_cycle"]]`)
and iterated with `runs` starting at 0. -/
def autotaskCycle (tasks : List TaskItem) (limit : Nat) : List AutoEvent × Nat :=
  autotaskGo (tasks.take limit) 0 limit

/-- One selected project: its name and whether `run_project_by_name`
raises on it (its log write is unprotected, so it can).  A raise is
caught and logged and `runs` is not incremented. -/
abbrev ProjItem := Str × Bool

/-- Events of one project iteration (sandbox_autorun.py lines 96-103):
the engine is always invoked; a raise is caught and logged. -/
def projectStep (p : ProjItem) : List AutoEvent :=
  if p.2 then [.attempt p.1, .errorLogged p.1] else [.attempt p.1]

/-- The project loop over the selected projects, carrying `runs`:
`runs += 1` only on a non-raising call, and the loop breaks once
`runs >= max_runs_per_cycle` (lines 96-105). -/
def projectGo : List ProjItem → Nat → Nat → List AutoEvent × Nat
  | [], runs, _ => ([], runs)
  | p :: rest, runs, limit =>
      let evs := projectStep p
      let nruns := if p.2 then runs else runs + 1
      if limit ≤ nruns then (evs, nruns)
      else
        let tail := projectGo rest nruns limit
        (evs ++ tail.1, tail.2)

/-- One project-mode firing cycle: `projects[:cfg["max_runs_per_cycle"]]`
iterated with `runs` starting at 0. -/
def projectCycle (projects : List ProjItem) (limit : Nat) : List AutoEvent × Nat :=
  projectGo (projects.take limit) 0 limit

/-! ## Environment scrubbing (`_safe_env`) -/

/-- A process environment: a partial map from variable names to values. -/
abbrev Env := String → Option String

/-- The loop's allow-list in `_safe_env` (sandbox_manager.py line 37). -/
def allowCopied : List String := ["SYSTEMROOT", "PATH", "TMP", "TEMP"]

/-- Every key the child environment can contain. -/
def allowKeys : List String := allowCopied ++ ["PYTHONUNBUFFERED"]

/-- `_safe_env` (sandbox_manager.py lines 30-42): start from an empty
dictionary, copy the four allow-listed variables that the host defines,
then force `PYTHONUNBUFFERED = "1"`. -/
def safe_env (host : Env) : Env := fun k =>
  if k = "PYTHONUNBUFFERED" then some "1"
  else if k ∈ allowCopied then host k
  else none

/-! ## Helper lemmas -/

/-- The accumulator-passing basename scan never outputs a slash. -/
lemma slash_not_mem_basenameAux (cs : List Char) (acc : List Char) (h : '/' ∉ acc) :
    '/' ∉ basenameAux cs acc := by
  induction cs generalizing acc with
  | nil => simpa [basenameAux] using h
  | cons c cs ih =>
      by_cases hc : c = '/'
      · simpa [basenameAux, hc] using ih [] (by simp)
      · refine (ih (acc ++ [c]) ?_).imp ?_ <;> simp [basenameAux, hc, h]
        exact fun hmem => hc (by simpa using hmem.symm)

/-- `os.path.basename` never outputs a slash. -/
lemma slash_not_mem_basename (s : Str) : '/' ∉ basename s :=
  slash_not_mem_basenameAux s [] (by simp)

/-- When the descriptor file is gone, `approve_request` takes the
read-failure branch: bad-request reply, state untouched. -/
lemma approve_descriptor_missing (st : SbState) (rf : Str) (unlinkOk : Bool)
    (h : st.descriptors rf = none) :
    approve_request st rf unlinkOk = (.ret badRequestRes, st) := by
  simp [approve_request, h]

/-! ## Claim theorems -/

/-- C1: whenever the child process completes within the timeout — with any
exit code, in particular after a fault raised inside the sandboxed code,
whose traceback text the merged stream contains — `run_code_snippet`
returns (never raises) a result with `ok = true` whose `output` is
exactly the merged stdout+stderr text of the process. -/
theorem snippet_completed_ok (code out : String) (exitCode t : Nat) (logWriteOk : Bool) :
    (run_code_snippet code (.completed out exitCode t) logWriteOk).result =
      .ret { ok := true, output := some out, error := none, elapsed := some t } := by
  rfl

/-- C2: on a wall-clock timeout both `run_code_snippet` and (for an
existing project, with the log write succeeding) `run_project_by_name`
return `ok = false`, `error = "timeout"`, and a result dictionary with no
`elapsed` key. -/
theorem timeout_result (code : String) (logWriteOk : Bool) (store : List Str)
    (name : Str) (hmem : basename name ∈ store) :
    (run_code_snippet code .timedOut logWriteOk).result =
      .ret { ok := false, output := some "", error := some "timeout", elapsed := none } ∧
    (run_project_by_name store name .timedOut true).result =
      .ret { ok := false, output := some "", error := some "timeout", elapsed := none } := by
  constructor
  · rfl
  · simp [run_project_by_name, hmem, procResult]

/-- Witness for C2 at a concrete store and project name. -/
theorem timeout_result_witness :
    basename ['a', '.', 'p', 'y'] ∈ [['a', '.', 'p', 'y']] ∧
    (run_project_by_name [['a', '.', 'p', 'y']] ['a', '.', 'p', 'y'] .timedOut true).result =
      .ret { ok := false, output := some "", error := some "timeout", elapsed := none } :=
  ⟨by decide, (timeout_result "x" true [['a', '.', 'p', 'y']] ['a', '.', 'p', 'y']
    (by decide)).2⟩

/-- C10: a run that ends in a timeout or a launch fault returns the empty
string as its `output` field — the partial output the child produced is
discarded — both for `run_code_snippet` and for `run_project_by_name` on
an existing project with a succeeding log write. -/
theorem partial_output_discarded (code msg : String) (logWriteOk : Bool)
    (store : List Str) (name : Str) (hmem : basename name ∈ store) :
    (run_code_snippet code .timedOut logWriteOk).result =
      .ret { ok := false, output := some "", error := some "timeout" } ∧
    (run_code_snippet code (.launchFault msg) logWriteOk).result =
      .ret { ok := false, output := some "", error := some msg } ∧
    (run_project_by_name store name .timedOut true).result =
      .ret { ok := false, output := some "", error := some "timeout" } ∧
    (run_project_by_name store name (.launchFault msg) true).result =
      .ret { ok := false, output := some "", error := some msg } := by
  refine ⟨rfl, rfl, ?_, ?_⟩ <;> simp [run_project_by_name, hmem, procResult]

/-- Witness for C10 at a concrete store and project name. -/
theorem partial_output_discarded_witness :
    basename ['b', '.', 'p', 'y'] ∈ [['b', '.', 'p', 'y']] ∧
    (run_project_by_name [['b', '.', 'p', 'y']] ['b', '.', 'p', 'y']
        (.launchFault "boom") true).result =
      .ret { ok := false, output := some "", error := some "boom" } :=
  ⟨by decide, (partial_output_discarded "x" "boom" true [['b', '.', 'p', 'y']]
    ['b', '.', 'p', 'y'] (by decide)).2.2.2⟩

/-- C3 counterexample: the claim fails on `run_project_by_name` in two
concrete ways.  When the named project is absent, the invocation returns
without attempting any log write, so no new log record is written; and
when the project exists but the (unprotected) log write fails, the
invocation raises instead of returning the computed result, so the
write failure is not swallowed and does change what the caller gets. -/
theorem project_logging_claim_false :
    (run_project_by_name [] ['x'] (.completed "" 0 0) true).logAttempts = 0 ∧
    (run_project_by_name [['x', '.', 'p', 'y']] ['x', '.', 'p', 'y']
        (.completed "out" 0 1) false).result = .raised "log write failed" := by
  constructor <;> rfl

/-- C3 as amended: `run_code_snippet` attempts exactly one log write per
invocation, a successful write produces exactly one record, and a failed
write is swallowed, leaving the returned result unchanged.
`run_project_by_name` attempts exactly one log write when the named
project exists and none at all when it is absent; when its write fails,
the failure propagates to the caller as a raised exception in place of
the result. -/
theorem logging_per_invocation (code : String) (outcome : ProcOutcome) (logWriteOk : Bool)
    (store : List Str) (name : Str) :
    (run_code_snippet code outcome logWriteOk).logAttempts = 1 ∧
    (logWriteOk = true → (run_code_snippet code outcome logWriteOk).logsWritten = 1) ∧
    (run_code_snippet code outcome logWriteOk).result =
      (run_code_snippet code outcome true).result ∧
    (basename name ∈ store →
      (run_project_by_name store name outcome logWriteOk).logAttempts = 1) ∧
    (basename name ∉ store →
      (run_project_by_name store name outcome logWriteOk).logAttempts = 0) ∧
    (basename name ∈ store → logWriteOk = false →
      (run_project_by_name store name outcome logWriteOk).result =
        .raised "log write failed") := by
  refine ⟨rfl, fun h => by simp [run_code_snippet, h], rfl, ?_, ?_, ?_⟩
  · intro hmem
    simp [run_project_by_name, hmem]
    cases logWriteOk <;> simp
  · intro hmem
    simp [run_project_by_name, hmem]
  · intro hmem hfail
    simp [run_project_by_name, hmem, hfail]

/-- Witness for the amended C3 at concrete inputs. -/
theorem logging_per_invocation_witness :
    (run_code_snippet "print(1)" (.completed "1\n" 0 1) true).logAttempts = 1 ∧
    basename ['x'] ∉ ([] : List Str) ∧
    (run_project_by_name [] ['x'] (.completed "1\n" 0 1) true).logAttempts = 0 := by
  refine ⟨(logging_per_invocation "print(1)" (.completed "1\n" 0 1) true [] ['x']).1,
    by decide, ?_⟩
  exact (logging_per_invocation "print(1)" (.completed "1\n" 0 1) true [] ['x']).2.2.2.2.1
    (by decide)

/-- C8: for every name, the file name produced by `save_project` contains
no slash (hence no directory component: the saved path is directly inside
the store directory, with no traversal outside it), is nonempty, and ends
with the canonical ".py" suffix. -/
theorem save_project_safe (filename : Str) :
    '/' ∉ save_project filename ∧
    pySuffix <:+ save_project filename ∧
    save_project filename ≠ [] := by
  unfold save_project
  by_cases h : endsWithPy (basename filename) = true
  · have hsuf : pySuffix <:+ basename filename := of_decide_eq_true h
    refine ⟨by simp [h, slash_not_mem_basename], by simp [h, hsuf], ?_⟩
    intro hnil
    simp only [h, if_pos] at hnil
    have := hsuf.length_le
    simp [hnil, pySuffix] at this
  · simp only [h, Bool.false_eq_true, if_false]
    refine ⟨?_, List.suffix_append _ _, by simp [pySuffix]⟩
    intro hmem
    rcases List.mem_append.1 hmem with hmem | hmem
    · exact slash_not_mem_basename filename hmem
    · simp [pySuffix] at hmem

/-- A first concrete host environment, defining a secret and a proxy
variable alongside allow-listed ones. -/
def hostEnvA : Env := fun k =>
  if k = "PATH" then some "/usr/bin"
  else if k = "TMP" then some "/tmp"
  else if k = "AWS_SECRET_ACCESS_KEY" then some "hunter2"
  else if k = "HTTP_PROXY" then some "http://proxy-a"
  else none

/-- A second concrete host environment, agreeing with `hostEnvA` on the
allow-listed variables but with different secret and proxy values. -/
def hostEnvB : Env := fun k =>
  if k = "PATH" then some "/usr/bin"
  else if k = "TMP" then some "/tmp"
  else if k = "AWS_SECRET_ACCESS_KEY" then some "swordfish"
  else if k = "HTTP_PROXY" then some "http://proxy-b"
  else none

/-- C9: every variable the child environment defines is one of the five
allow-listed keys, and two host environments that agree on the
allow-listed variables yield pointwise identical child environments, so
no other host variable (secrets, proxies, credentials) can influence the
child process. -/
theorem child_env_allowlisted :
    (∀ host : Env, ∀ k : String, (safe_env host k).isSome = true → k ∈ allowKeys) ∧
    (∀ e₁ e₂ : Env, (∀ k ∈ allowKeys, e₁ k = e₂ k) → ∀ k, safe_env e₁ k = safe_env e₂ k) := by
  constructor
  · intro host k hk
    unfold safe_env at hk
    by_cases h1 : k = "PYTHONUNBUFFERED"
    · simp [h1, allowKeys, allowCopied]
    · by_cases h2 : k ∈ allowCopied
      · exact List.mem_append.2 (Or.inl h2)
      · simp [h1, h2] at hk
  · intro e₁ e₂ hagree k
    unfold safe_env
    by_cases h1 : k = "PYTHONUNBUFFERED"
    · simp [h1]
    · by_cases h2 : k ∈ allowCopied
      · simp [h1, h2, hagree k (List.mem_append.2 (Or.inl h2))]
      · simp [h1, h2]

/-- Witness for C9: under the two concrete hosts, which differ only in a
secret and a proxy variable, the child sees the same value of each — and
the membership half applied at a concrete defined key. -/
theorem child_env_allowlisted_witness :
    (safe_env hostEnvA "PATH").isSome = true ∧
    "PATH" ∈ allowKeys ∧
    (∀ k ∈ allowKeys, hostEnvA k = hostEnvB k) ∧
    safe_env hostEnvA "AWS_SECRET_ACCESS_KEY" = safe_env hostEnvB "AWS_SECRET_ACCESS_KEY" ∧
    safe_env hostEnvA "HTTP_PROXY" = safe_env hostEnvB "HTTP_PROXY" :=
  ⟨by decide, child_env_allowlisted.1 hostEnvA "PATH" (by decide), by decide,
    child_env_allowlisted.2 hostEnvA hostEnvB (by decide) "AWS_SECRET_ACCESS_KEY",
    child_env_allowlisted.2 hostEnvA hostEnvB (by decide) "HTTP_PROXY"⟩

/-- C4: approving a descriptor whose referenced code file exists succeeds,
moves the code file into the approved store under its original (base)
name — which then appears in `list_projects` — removes it from the
pending code files, and deletes the descriptor; a second approval of the
same, now-missing descriptor fails with the bad-request reply. -/
theorem approve_moves_and_consumes (st : SbState) (rf p : Str)
    (hdesc : st.descriptors rf = some (.parsed (some p)))
    (hcode : p ∈ st.pendingCode)
    (hnd : st.pendingCode.Nodup)
    (hpy : hasPySuffix (basename p) = true) :
    (approve_request st rf true).1 = .ret { ok := true, approvedPath := some (basename p) } ∧
    basename p ∈ (approve_request st rf true).2.store ∧
    basename p ∈ list_projects (approve_request st rf true).2.store ∧
    p ∉ (approve_request st rf true).2.pendingCode ∧
    (approve_request st rf true).2.descriptors rf = none ∧
    (approve_request (approve_request st rf true).2 rf true).1 = .ret badRequestRes := by
  have hif : (approve_request st rf true).2.descriptors rf = none := by
    simp [approve_request, hdesc, hcode]
  refine ⟨by simp [approve_request, hdesc, hcode], by simp [approve_request, hdesc, hcode],
    ?_, ?_, hif, ?_⟩
  · simp only [approve_request, hdesc, hcode, if_pos]
    exact List.mem_filter.2 ⟨List.mem_cons_self _ _, hpy⟩
  · simp only [approve_request, hdesc, hcode, if_pos]
    intro hmem
    exact absurd rfl ((hnd.mem_erase_iff.1 hmem).1)
  · rw [approve_descriptor_missing _ rf true hif]

/-- Concrete state for the C4 witness: one pending request whose
descriptor at "r1" references the pending code file "t.py". -/
def approvalState : SbState :=
  { descriptors := fun r =>
      if r = ['r', '1'] then some (.parsed (some ['t', '.', 'p', 'y'])) else none
    pendingCode := [['t', '.', 'p', 'y']]
    store := [] }

/-- Witness for C4 on `approvalState`. -/
theorem approve_moves_and_consumes_witness :
    approvalState.descriptors ['r', '1'] = some (.parsed (some ['t', '.', 'p', 'y'])) ∧
    hasPySuffix (basename ['t', '.', 'p', 'y']) = true ∧
    basename ['t', '.', 'p', 'y'] ∈
      list_projects (approve_request approvalState ['r', '1'] true).2.store ∧
    (approve_request (approve_request approvalState ['r', '1'] true).2 ['r', '1'] true).1 =
      .ret badRequestRes :=
  ⟨by decide, by decide,
    (approve_moves_and_consumes approvalState ['r', '1'] ['t', '.', 'p', 'y']
      (by decide) (by decide) (by decide) (by decide)).2.2.1,
    (approve_moves_and_consumes approvalState ['r', '1'] ['t', '.', 'p', 'y']
      (by decide) (by decide) (by decide) (by decide)).2.2.2.2.2⟩

/-- Concrete state for the C5 counterexample: the descriptor at "r2" is
valid JSON but its `code_full_path` field is absent, so
`Path(req.get("code_full_path"))` is `Path(None)`. -/
def danglingState : SbState :=
  { descriptors := fun r => if r = ['r', '2'] then some (.parsed none) else none
    pendingCode := []
    store := [] }

/-- C5 counterexample: a malformed descriptor — valid JSON with no
`code_full_path` field — makes `approve_request` raise a `TypeError`
to the caller instead of returning a BadRequest-style error result;
`Path(req.get("code_full_path"))` sits outside the `try` block. -/
theorem approve_malformed_raises :
    (approve_request danglingState ['r', '2'] true).1 =
      .raised "TypeError: argument should be a str or an os.PathLike object, not NoneType" :=
  rfl

/-- C5 as amended: when the descriptor is unreadable or unparsable, or
parses with a string code path whose file is missing, `approve_request`
returns a BadRequest-style error result and leaves the state — in
particular the descriptor — completely untouched; but a parsable
descriptor whose `code_full_path` field is absent or null raises a
`TypeError` to the caller (still without mutating anything). -/
theorem approve_failure_no_mutation (st : SbState) (rf : Str) (unlinkOk : Bool) :
    (st.descriptors rf = none →
      approve_request st rf unlinkOk = (.ret badRequestRes, st)) ∧
    (st.descriptors rf = some .unparsable →
      approve_request st rf unlinkOk = (.ret badRequestRes, st)) ∧
    (∀ p, st.descriptors rf = some (.parsed (some p)) → p ∉ st.pendingCode →
      approve_request st rf unlinkOk = (.ret missingCodeRes, st)) := by
  refine ⟨fun h => by simp [approve_request, h], fun h => by simp [approve_request, h],
    fun p hp hmem => by simp [approve_request, hp, hmem]⟩

/-- Concrete state for the C5 witness: the descriptor at "r3" references
the code file "g.py", which is not among the pending code files. -/
def missingCodeState : SbState :=
  { descriptors := fun r =>
      if r = ['r', '3'] then some (.parsed (some ['g', '.', 'p', 'y'])) else none
    pendingCode := []
    store := [] }

/-- Witness for the amended C5 on `missingCodeState`. -/
theorem approve_failure_no_mutation_witness :
    missingCodeState.descriptors ['r', '3'] = some (.parsed (some ['g', '.', 'p', 'y'])) ∧
    ['g', '.', 'p', 'y'] ∉ missingCodeState.pendingCode ∧
    approve_request missingCodeState ['r', '3'] true = (.ret missingCodeRes, missingCodeState) :=
  ⟨by decide, by decide,
    (approve_failure_no_mutation missingCodeState ['r', '3'] true).2.2
      ['g', '.', 'p', 'y'] (by decide) (by decide)⟩

/-- The events of the autotask loop without the run counter and break:
the concatenation of each iteration's events. -/
def autotaskEvents : List TaskItem → List AutoEvent
  | [] => []
  | t :: ts => autotaskStep t ++ autotaskEvents ts

/-- How many of the selected tasks complete their iteration body (these
are the iterations that increment `runs`). -/
def readOkCount (l : List TaskItem) : Nat := (l.filter (fun t => t.2)).length

/-- As long as the run counter cannot reach the limit before the list is
exhausted — which holds for the sliced list the cycle iterates — the
break never cuts the loop short: the loop emits every iteration's events
and counts the completed ones. -/
lemma autotaskGo_eq (l : List TaskItem) (runs limit : Nat) (h : runs + l.length ≤ limit) :
    autotaskGo l runs limit = (autotaskEvents l, runs + readOkCount l) := by
  induction l generalizing runs with
  | nil => simp [autotaskGo, autotaskEvents, readOkCount]
  | cons t rest ih =>
      rcases t with ⟨n, ok⟩
      simp only [List.length_cons] at h
      cases ok
      · have hbr : ¬ limit ≤ runs := by omega
        have hrec := ih runs (by omega)
        simp [autotaskGo, hbr, hrec, autotaskEvents, readOkCount]
      · by_cases hbr : limit ≤ runs + 1
        · have hrest : rest = [] := List.length_eq_zero.1 (by omega)
          subst hrest
          simp [autotaskGo, hbr, autotaskEvents, readOkCount, autotaskStep]
        · have hrec := ih (runs + 1) (by omega)
          simp [autotaskGo, hbr, hrec, autotaskEvents, readOkCount]
          omega

/-- Tasks that are not in the list leave no attempt or deletion event. -/
lemma not_mem_autotaskEvents (l : List TaskItem) (n : Str) (h : n ∉ l.map Prod.fst) :
    AutoEvent.deleted n ∉ autotaskEvents l ∧ AutoEvent.attempt n ∉ autotaskEvents l := by
  induction l with
  | nil => simp [autotaskEvents]
  | cons t rest ih =>
      simp only [List.map_cons, List.mem_cons, not_or] at h
      obtain ⟨hne, hrest⟩ := h
      obtain ⟨ih1, ih2⟩ := ih hrest
      rcases t with ⟨m, ok⟩
      cases ok <;>
        simp_all [autotaskEvents, autotaskStep, List.mem_append]

/-- In a duplicate-free task list, a task that completes its iteration
contributes exactly one attempt immediately followed by exactly one
deletion, and no other deletion of that task occurs anywhere else. -/
lemma autotaskEvents_decomp (l : List TaskItem) (n : Str)
    (hnd : (l.map Prod.fst).Nodup) (hmem : (n, true) ∈ l) :
    ∃ pre post, autotaskEvents l = pre ++ .attempt n :: .deleted n :: post ∧
      AutoEvent.deleted n ∉ pre ∧ AutoEvent.deleted n ∉ post ∧
      AutoEvent.attempt n ∉ pre := by
  induction l with
  | nil => simp at hmem
  | cons t rest ih =>
      simp only [List.map_cons, List.nodup_cons] at hnd
      obtain ⟨hhead, hndrest⟩ := hnd
      rcases List.mem_cons.1 hmem with heq | hmem'
      · have ht : t = (n, true) := heq.symm
        subst ht
        have hnotin : n ∉ rest.map Prod.fst := hhead
        obtain ⟨hdel, hatt⟩ := not_mem_autotaskEvents rest n hnotin
        exact ⟨[], autotaskEvents rest, by simp [autotaskEvents, autotaskStep],
          by simp, hdel, by simp⟩
      · obtain ⟨pre, post, hev, hd1, hd2, ha1⟩ := ih hndrest hmem'
        have hne : t.1 ≠ n := by
          intro hc
          exact hhead (hc ▸ List.mem_map_of_mem Prod.fst hmem')
        refine ⟨autotaskStep t ++ pre, post, by simp [autotaskEvents, hev], ?_, hd2, ?_⟩
        · intro hc
          rcases List.mem_append.1 hc with hc | hc
          · rcases t with ⟨m, ok⟩
            cases ok <;> simp [autotaskStep] at hc
            exact hne hc.symm
          · exact hd1 hc
        · intro hc
          rcases List.mem_append.1 hc with hc | hc
          · rcases t with ⟨m, ok⟩
            cases ok <;> simp [autotaskStep] at hc
            exact hne hc.symm
          · exact ha1 hc

/-- C6: in an autotask firing cycle over duplicate-free task files, every
selected disposable task whose iteration body completes is deleted
exactly once, the deletion coming immediately after the execution
attempt on it — never before the attempt, and never a second time. -/
theorem disposable_deleted_once_after_attempt (tasks : List TaskItem) (limit : Nat)
    (n : Str) (hnd : (tasks.map Prod.fst).Nodup)
    (hsel : (n, true) ∈ tasks.take limit) :
    ∃ pre post,
      (autotaskCycle tasks limit).1 = pre ++ .attempt n :: .deleted n :: post ∧
      AutoEvent.deleted n ∉ pre ∧ AutoEvent.deleted n ∉ post ∧
      AutoEvent.attempt n ∉ pre := by
  have hcycle : (autotaskCycle tasks limit).1 = autotaskEvents (tasks.take limit) := by
    rw [autotaskCycle, autotaskGo_eq _ 0 limit (by simp)]
  have hnd' : ((tasks.take limit).map Prod.fst).Nodup := by
    rw [List.map_take]
    exact List.Nodup.sublist (List.take_sublist _ _) hnd
  rw [hcycle]
  exact autotaskEvents_decomp _ n hnd' hsel

/-- Witness for C6: two pending tasks, the first completing and the
second raising on read, with a per-cycle limit of 2. -/
theorem disposable_deleted_once_after_attempt_witness :
    ((([(['a'], true), (['b'], false)] : List TaskItem).map Prod.fst).Nodup) ∧
    ((['a'], true) ∈ ([(['a'], true), (['b'], false)] : List TaskItem).take 2) ∧
    ∃ pre post,
      (autotaskCycle [(['a'], true), (['b'], false)] 2).1 =
        pre ++ .attempt ['a'] :: .deleted ['a'] :: post ∧
      AutoEvent.deleted ['a'] ∉ pre ∧ AutoEvent.deleted ['a'] ∉ post ∧
      AutoEvent.attempt ['a'] ∉ pre :=
  ⟨by decide, by decide,
    disposable_deleted_once_after_attempt [(['a'], true), (['b'], false)] 2 ['a']
      (by decide) (by decide)⟩

/-- The events of the project loop without the run counter and break. -/
def projectEvents : List ProjItem → List AutoEvent
  | [] => []
  | p :: ps => projectStep p ++ projectEvents ps

/-- How many of the selected projects run without raising (only these
increment `runs`). -/
def okRunCount (l : List ProjItem) : Nat := (l.filter (fun p => !p.2)).length

/-- The project loop's break never cuts the sliced list short: every
selected project is iterated and only non-raising runs are counted. -/
lemma projectGo_eq (l : List ProjItem) (runs limit : Nat) (h : runs + l.length ≤ limit) :
    projectGo l runs limit = (projectEvents l, runs + okRunCount l) := by
  induction l generalizing runs with
  | nil => simp [projectGo, projectEvents, okRunCount]
  | cons p rest ih =>
      rcases p with ⟨n, fails⟩
      simp only [List.length_cons] at h
      cases fails
      · by_cases hbr : limit ≤ runs + 1
        · have hrest : rest = [] := List.length_eq_zero.1 (by omega)
          subst hrest
          simp [projectGo, hbr, projectEvents, okRunCount, projectStep]
        · have hrec := ih (runs + 1) (by omega)
          simp [projectGo, hbr, hrec, projectEvents, okRunCount]
          omega
      · have hbr : ¬ limit ≤ runs := by omega
        have hrec := ih runs (by omega)
        simp [projectGo, hbr, hrec, projectEvents, okRunCount]

/-- Every project of the list is attempted, and raising projects get an
error-logged event. -/
lemma mem_projectEvents (l : List ProjItem) (n : Str) (fails : Bool)
    (h : (n, fails) ∈ l) :
    AutoEvent.attempt n ∈ projectEvents l ∧
    (fails = true → AutoEvent.errorLogged n ∈ projectEvents l) := by
  induction l with
  | nil => simp at h
  | cons p rest ih =>
      rcases List.mem_cons.1 h with heq | hmem
      · have hp : p = (n, fails) := heq.symm
        subst hp
        cases fails <;> simp [projectEvents, projectStep]
      · obtain ⟨h1, h2⟩ := ih hmem
        exact ⟨List.mem_append.2 (Or.inr h1),
          fun hf => List.mem_append.2 (Or.inr (h2 hf))⟩

/-- C7: in a project-mode firing cycle, every selected project is invoked
— a raising run earlier in the cycle never prevents a later selected
project from being executed — a raising run is caught and logged, and
the cycle's run counter equals the number of non-raising runs among the
selected projects, so failures do not count toward the per-cycle
limit. -/
theorem project_failure_contained (projects : List ProjItem) (limit : Nat)
    (n : Str) (fails : Bool) (hsel : (n, fails) ∈ projects.take limit) :
    AutoEvent.attempt n ∈ (projectCycle projects limit).1 ∧
    (fails = true → AutoEvent.errorLogged n ∈ (projectCycle projects limit).1) ∧
    (projectCycle projects limit).2 = okRunCount (projects.take limit) := by
  have hcycle : projectCycle projects limit =
      (projectEvents (projects.take limit), okRunCount (projects.take limit)) := by
    rw [projectCycle,
      projectGo_eq _ 0 limit (by simp),
      Nat.zero_add]
  rw [hcycle]
  obtain ⟨h1, h2⟩ := mem_projectEvents _ n fails hsel
  exact ⟨h1, h2, rfl⟩

/-- Witness for C7: the first selected project raises, the second — still
executed — runs fine; the counter registers only the second. -/
theorem project_failure_contained_witness :
    ((['b'], false) ∈ ([(['a'], true), (['b'], false)] : List ProjItem).take 2) ∧
    (AutoEvent.attempt ['b'] ∈ (projectCycle [(['a'], true), (['b'], false)] 2).1 ∧
      (false = true →
        AutoEvent.errorLogged ['b'] ∈ (projectCycle [(['a'], true), (['b'], false)] 2).1) ∧
      (projectCycle [(['a'], true), (['b'], false)] 2).2 =
        okRunCount (([(['a'], true), (['b'], false)] : List ProjItem).take 2)) :=
  ⟨by decide, project_failure_contained [(['a'], true), (['b'], false)] 2 ['b'] false
    (by decide)⟩

end Sandbox
